import Mathlib

/-!
Verification of the rpcplus server core (server.go of package rpcplus).

The development shallowly embeds the parts of the source the claims touch:
the reflection-level method validator (prepareMethod), service registration
(register), response emission (sendResponse), the per-call executor
(service.call) with its streaming pumper goroutine, the request-header
reader (readRequestHeader / readRequest) and the per-connection serving
loop (ServeCodecWithContext), and the context-value selection handed to
handlers.

Go reflection types are embedded as a small inductive carrying exactly the
observations the source makes of a reflect.Type: its kind (pointer or not),
its name and its package path. Unicode upper-case classification is
approximated by ASCII upper case, which is faithful for every identifier
the source or spec mentions. Channels are embedded by making each select
resolution of the pumper goroutine an explicit event of a schedule, and a
channel send that is never matched by a receive is recorded as blocking.
-/

/-! ## Go reflection model -/

/-- A Go type as the source observes it through reflect: a pointer type, or
a named (possibly predeclared) type with a name and a package path. A
predeclared or built-in type has an empty package path. -/
inductive GoType where
  | ptr (elem : GoType)
  | named (name : String) (pkgPath : String)
deriving DecidableEq, Repr

/-- Source isExported: whether the first character of the name is upper
case (ASCII approximation of unicode.IsUpper after DecodeRuneInString; an
empty name decodes to the replacement rune, which is not upper case). -/
def isExported (name : String) : Bool :=
  match name.data with
  | [] => false
  | c :: _ => c.isUpper

/-- Source isExportedOrBuiltinType: strip pointers, then the name must be
exported or the package path empty. -/
def isExportedOrBuiltinType : GoType → Bool
  | .ptr t => isExportedOrBuiltinType t
  | .named n p => isExported n || p == ""

/-- Whether reflect Kind is Ptr. -/
def kindIsPtr : GoType → Bool
  | .ptr _ => true
  | .named _ _ => false

/-- Source typeOfStream = reflect.TypeOf(Stream{}). -/
def typeOfStream : GoType := .named "Stream" "github.com/flynn/rpcplus"

/-- Source typeOfError = reflect.TypeOf((*error)(nil)).Elem(): the
predeclared error interface, whose package path is empty. -/
def typeOfError : GoType := .named "error" ""

/-- A method as reflect.Type.Method reports it: name, package path (empty
exactly for an exported method), the In types with the receiver at index
0, and the Out types. -/
structure GoMethod where
  name : String
  pkgPath : String
  ins : List GoType
  outs : List GoType
deriving DecidableEq, Repr

/-- Source methodType: the descriptor prepareMethod builds (the mutex is
operational and carries no data; numCalls starts at zero). -/
structure methodType where
  method : GoMethod
  ArgType : GoType
  ReplyType : GoType
  ContextType : Option GoType
  stream : Bool
  numCalls : Nat
deriving DecidableEq, Repr

/-- The checks of prepareMethod after the In types are selected: argument
exported or builtin, reply either the Stream type or of pointer kind,
reply exported or builtin, exactly one Out, and that Out the error type. -/
def prepareMethodChecks (method : GoMethod) (argType replyType : GoType)
    (contextType : Option GoType) : Option methodType :=
  let stream := replyType = typeOfStream
  if ¬ isExportedOrBuiltinType argType then none
  else if ¬ stream ∧ ¬ kindIsPtr replyType then none
  else if ¬ isExportedOrBuiltinType replyType then none
  else if method.outs.length ≠ 1 then none
  else if method.outs.headD typeOfError ≠ typeOfError then none
  else some ⟨method, argType, replyType, contextType, decide stream, 0⟩

/-- Source prepareMethod: nil for an unexported method; NumIn 3 selects
(arg, reply) with no context, NumIn 4 selects (context, arg, reply); any
other In count is rejected; then the remaining checks run. -/
def prepareMethod (method : GoMethod) : Option methodType :=
  if method.pkgPath ≠ "" then none
  else
    match method.ins with
    | [_rcvr, a, r] => prepareMethodChecks method a r none
    | [_rcvr, c, a, r] => prepareMethodChecks method a r (some c)
    | _ => none

/-! ## Service registry -/

/-- Source service: the name a service is registered under, the name of
the receiver type (what Indirect(rcvr).Type().Name() reports) and the map
from method name to descriptor, embedded as an association list. -/
structure service where
  name : String
  rcvrTypeName : String
  method : List (String × methodType)
deriving DecidableEq, Repr

/-- The method-installation loop of register: every method of the receiver
type that prepareMethod accepts enters the method map under its name. -/
def installMethods (ms : List GoMethod) : List (String × methodType) :=
  ms.filterMap fun m => (prepareMethod m).map fun mt => (m.name, mt)

/-- The outcome of register: nil, a non-nil error, or the log.Fatal call
that ends the process without returning. -/
inductive RegOutcome where
  | ok
  | err (msg : String)
  | fatal (msg : String)
deriving DecidableEq, Repr

/-- Whether the outcome is a returned non-nil error. -/
def RegOutcome.isErr : RegOutcome → Bool
  | .err _ => true
  | _ => false

/-- Whether the outcome is the log.Fatal abort. -/
def RegOutcome.isFatal : RegOutcome → Bool
  | .fatal _ => true
  | _ => false

/-- Source register: the service name defaults to the receiver type name
and is replaced by the given name when useName holds; an empty name is a
log.Fatal abort; an unexported name without useName, a name already in the
map, or an empty set of accepted methods each return an error and leave
the map untouched; otherwise the service is appended to the map. The
receiver type is given by the name reflect reports for it and the list of
its methods. -/
def register (serviceMap : List (String × service)) (rcvrTypeName : String)
    (ms : List GoMethod) (name : String) (useName : Bool) :
    RegOutcome × List (String × service) :=
  let sname := if useName then name else rcvrTypeName
  if sname = "" then
    (.fatal "rpc: no service name for type", serviceMap)
  else if ¬ isExported sname ∧ ¬ useName then
    (.err ("rpc Register: type " ++ sname ++ " is not exported"), serviceMap)
  else if (serviceMap.lookup sname).isSome then
    (.err ("rpc: service already defined: " ++ sname), serviceMap)
  else if (installMethods ms).length = 0 then
    (.err ("rpc Register: type " ++ sname ++
      " has no exported methods of suitable type"), serviceMap)
  else
    (.ok, serviceMap ++ [(sname, ⟨sname, rcvrTypeName, installMethods ms⟩)])

/-- Source Server state the claims touch: the service map and the
configured context type. -/
structure ServerState where
  serviceMap : List (String × service)
  contextType : GoType
deriving DecidableEq, Repr

/-- Source NewServer: empty service map, context type reflect.TypeOf("") —
the predeclared string type. -/
def NewServer : ServerState :=
  { serviceMap := [], contextType := .named "string" "" }

/-- Source SetContextType: replaces the configured context type. -/
def SetContextType (s : ServerState) (t : GoType) : ServerState :=
  { s with contextType := t }

/-! ## Wire model: headers, bodies, frames, sendResponse -/

/-- Source Request header: ServiceMethod and Seq (the free-list link next
carries no observable data). Seq is a uint64 the server never computes
with, so Nat embeds it. -/
structure Request where
  ServiceMethod : String
  Seq : Nat
deriving DecidableEq, Repr

/-- Source Response header: echoed ServiceMethod, echoed Seq, and the
error string (empty means success). -/
structure Response where
  ServiceMethod : String
  Seq : Nat
  Error : String
deriving DecidableEq, Repr

/-- A body value handed to codec.WriteResponse: the opaque invalidRequest
placeholder, nil (the streaming terminal frame), or an opaque payload
identified by a number. -/
inductive Body where
  | invalidRequest
  | nil
  | val (v : Nat)
deriving DecidableEq, Repr

/-- One codec.WriteResponse call: the response header, the body value, and
the last flag. -/
structure Frame where
  header : Response
  body : Body
  last : Bool
deriving DecidableEq, Repr

/-- Source lastStreamResponseError: the end-of-stream sentinel. -/
def lastStreamResponseError : String := "EOS"

/-- Source sendResponse, as the frame it hands to codec.WriteResponse: the
response header starts zeroed from the free list, ServiceMethod and Seq
echo the request, and a non-empty errmsg is written into the header while
the body is replaced by invalidRequest. -/
def sendResponse (req : Request) (reply : Body) (errmsg : String)
    (last : Bool) : Frame :=
  { header := { ServiceMethod := req.ServiceMethod,
                Seq := req.Seq,
                Error := if errmsg ≠ "" then errmsg else "" },
    body := if errmsg ≠ "" then Body.invalidRequest else reply,
    last := last }

/-- The value the Go sendResponse returns to its caller: the function
declares a named return err, discards the result of codec.WriteResponse,
and returns err never having assigned it — so whatever the codec write
reported (given here as the write outcome, none for success), the caller
receives nil. -/
def sendResponseReturn (writeOutcome : Option String) : Option String :=
  none

/-! ## Per-call executor (service.call) and the streaming pumper

The pumper goroutine loops over a select with four cases. A run of the
goroutine is embedded as a schedule: the list of select resolutions, in
order. A send event carries the body value received from sendChan, the
outcome the codec write would report, and whether the error-channel push
the source would then attempt is ever matched by a receive; the eof and
stop events carry the same consumption flag for their io.EOF push. An
unmatched push on the unbuffered error channel blocks the goroutine
forever, so the schedule ends there with a blocked status and the
deferred close of sendDone never runs. -/

/-- One select resolution of the pumper goroutine. -/
inductive PumpEvent where
  | send (data : Body) (writeOutcome : Option String) (consumed : Bool)
  | funcDone
  | eofSig (consumed : Bool)
  | stopSig (consumed : Bool)
deriving DecidableEq, Repr

/-- A value pushed into the error channel of the Stream sink. -/
inductive PumpMsg where
  | ioEOF
  | writeErr (e : String)
deriving DecidableEq, Repr

/-- Where the pumper goroutine stands: still in the select loop, returned
(the deferred close of sendDone ran), or blocked forever on an error
channel push that no receive matches. -/
inductive PumpStatus where
  | running
  | exited
  | blocked
deriving DecidableEq, Repr

/-- The observable state of the pumper goroutine: the frames its
sendResponse calls handed to the codec, the current value of the streamErr
variable of call, the error-channel pushes that completed, and its
status. -/
structure PumpState where
  writes : List Frame
  streamErr : Option String
  pushes : List PumpMsg
  status : PumpStatus
deriving DecidableEq, Repr

/-- The pumper before any select resolution. -/
def pumpInit : PumpState :=
  { writes := [], streamErr := none, pushes := [], status := .running }

/-- One step of the pumper loop. A send writes a non-terminal frame with
empty error and assigns streamErr from the value sendResponse returns;
only a non-nil streamErr is pushed and ends the loop. funcDone returns.
eof and stop push io.EOF and return. A goroutine no longer running takes
no step. -/
def pumpStep (req : Request) (s : PumpState) (e : PumpEvent) : PumpState :=
  match s.status with
  | .exited => s
  | .blocked => s
  | .running =>
    match e with
    | .send data writeOutcome consumed =>
      let frame := sendResponse req data "" false
      match sendResponseReturn writeOutcome with
      | some er =>
        if consumed then
          { writes := s.writes ++ [frame], streamErr := some er,
            pushes := s.pushes ++ [.writeErr er], status := .exited }
        else
          { writes := s.writes ++ [frame], streamErr := some er,
            pushes := s.pushes, status := .blocked }
      | none =>
        { s with writes := s.writes ++ [frame], streamErr := none }
    | .funcDone => { s with status := .exited }
    | .eofSig consumed =>
      if consumed then { s with pushes := s.pushes ++ [.ioEOF], status := .exited }
      else { s with status := .blocked }
    | .stopSig consumed =>
      if consumed then { s with pushes := s.pushes ++ [.ioEOF], status := .exited }
      else { s with status := .blocked }

/-- The pumper goroutine over a whole schedule. -/
def runPump (req : Request) (events : List PumpEvent) : PumpState :=
  events.foldl (pumpStep req) pumpInit

/-- Lines 489-499 of call: the errmsg of the terminal streaming frame —
the error the handler returned if non-nil, else streamErr if non-nil,
else the EOS sentinel. -/
def streamTerminalErrmsg (handlerErr : Option String)
    (streamErr : Option String) : String :=
  match handlerErr with
  | some e => e
  | none =>
    match streamErr with
    | some e => e
    | none => lastStreamResponseError

/-- An observable action of the executor: a codec write, or the close of
the done channel. -/
inductive CallEvent where
  | write (f : Frame)
  | closeDone
deriving DecidableEq, Repr

/-- The unary path of service.call: invoke the handler (its returned
error, nil or not, is the parameter), write one terminal response carrying
the reply and the error string, then close done. -/
def callUnaryTrace (req : Request) (handlerErr : Option String)
    (replyv : Body) : List CallEvent :=
  let errmsg := match handlerErr with | some e => e | none => ""
  [.write (sendResponse req replyv errmsg true), .closeDone]

/-- The streaming path of service.call: run the pumper over its schedule;
if the pumper returned (sendDone closed), write the terminal frame with a
nil body and the selected errmsg and close done; if the pumper never
returned, call stays blocked on receiving sendDone, so neither the
terminal frame nor the close of done ever happens. -/
def callStreamTrace (req : Request) (handlerErr : Option String)
    (events : List PumpEvent) : List CallEvent :=
  match (runPump req events).status with
  | .exited =>
    (runPump req events).writes.map CallEvent.write ++
      [.write (sendResponse req .nil
        (streamTerminalErrmsg handlerErr (runPump req events).streamErr) true),
       .closeDone]
  | _ => (runPump req events).writes.map CallEvent.write

/-- Count of done closes in a trace. -/
def countDone : List CallEvent → Nat
  | [] => 0
  | .closeDone :: es => countDone es + 1
  | .write _ :: es => countDone es

/-- Count of terminal frames (last flag set) carrying the given seq. -/
def countTerminal (seq : Nat) : List CallEvent → Nat
  | [] => 0
  | .write f :: es =>
    (if f.last = true ∧ f.header.Seq = seq then 1 else 0) + countTerminal seq es
  | .closeDone :: es => countTerminal seq es

/-- The prefix of a trace before the first close of done. -/
def beforeDone : List CallEvent → List CallEvent
  | [] => []
  | .closeDone :: _ => []
  | .write f :: es => .write f :: beforeDone es

/-- The per-request executor invariant the spec states: done is closed
exactly once, and exactly one terminal frame with the seq of the request
is written, before that close. -/
def doneOnceWithTerminal (seq : Nat) (tr : List CallEvent) : Prop :=
  countDone tr = 1 ∧ countTerminal seq tr = 1 ∧
    countTerminal seq (beforeDone tr) = 1

/-! ## Request reading and the serving loop -/

/-- What codec.ReadRequestHeader reports: a decoded header, io.EOF,
io.ErrUnexpectedEOF, or another decode error with its message. -/
inductive HdrResult where
  | ok (req : Request)
  | eofErr
  | unexpectedEofErr
  | decodeErr (msg : String)
deriving DecidableEq, Repr

/-- The error values readRequest can return (Go errors; the serving loop
compares against errCloseStream by identity). The message strings keep the
text of the source, with the apostrophe of the lookup failures dropped. -/
inductive ServeErr where
  | ioEOF
  | ioUnexpectedEOF
  | cannotDecode (msg : String)
  | closeStream
  | illFormed (serviceMethod : String)
  | noService (serviceMethod : String)
  | noMethod (serviceMethod : String)
  | bodyDecode (msg : String)
deriving DecidableEq, Repr

/-- The Error() string of each error value (what sendResponse is handed). -/
def serveErrString : ServeErr → String
  | .ioEOF => "EOF"
  | .ioUnexpectedEOF => "unexpected EOF"
  | .cannotDecode m => "rpc: server cannot decode request: " ++ m
  | .closeStream => "rpc: close stream"
  | .illFormed sm => "rpc: service/method request ill-formed: " ++ sm
  | .noService sm => "rpc: cannot find service " ++ sm
  | .noMethod sm => "rpc: cannot find method " ++ sm
  | .bodyDecode m => m

/-- The tuple readRequestHeader returns. -/
structure RRHOut where
  service : Option service
  mtype : Option methodType
  req : Option Request
  keepReading : Bool
  err : Option ServeErr
deriving DecidableEq, Repr

/-- Source readRequestHeader: any header read failure drops the request
(req = nil) with keepReading still false — io.EOF and ErrUnexpectedEOF
are passed through, any other error is wrapped as a decode failure. After
a successful header read keepReading is set; CloseStream short-circuits
with errCloseStream; then the dotted name must split in two, the service
must exist and the method must exist in it. -/
def readRequestHeader (serviceMap : List (String × service)) :
    HdrResult → RRHOut
  | .eofErr => ⟨none, none, none, false, some .ioEOF⟩
  | .unexpectedEofErr => ⟨none, none, none, false, some .ioUnexpectedEOF⟩
  | .decodeErr m => ⟨none, none, none, false, some (.cannotDecode m)⟩
  | .ok r =>
    if r.ServiceMethod = "CloseStream" then
      ⟨none, none, some r, true, some .closeStream⟩
    else
      let parts := r.ServiceMethod.splitOn "."
      if parts.length ≠ 2 then
        ⟨none, none, some r, true, some (.illFormed r.ServiceMethod)⟩
      else
        match serviceMap.lookup (parts.headD "") with
        | none => ⟨none, none, some r, true, some (.noService r.ServiceMethod)⟩
        | some svc =>
          match svc.method.lookup (parts.getD 1 "") with
          | none => ⟨some svc, none, some r, true, some (.noMethod r.ServiceMethod)⟩
          | some mt => ⟨some svc, some mt, some r, true, none⟩

/-- The tuple readRequest returns, together with whether it called
codec.ReadRequestBody(nil) to discard the body. The gob-level allocation
and indirection of the argument value is abstracted to the decoded body
value; replyvAllocated records whether a fresh reply value was made (only
for non-streaming methods). -/
structure ReadReqOut where
  service : Option service
  mtype : Option methodType
  req : Option Request
  argv : Option Body
  replyvAllocated : Bool
  keepReading : Bool
  err : Option ServeErr
  discardedBody : Bool
deriving DecidableEq, Repr

/-- Source readRequest: on a header error the body is discarded only when
keepReading holds; otherwise the argument body is decoded (bodyErr is what
that read reports) and a reply value is allocated for non-streaming
methods. -/
def readRequest (serviceMap : List (String × service)) (hdr : HdrResult)
    (bodyVal : Body) (bodyErr : Option String) : ReadReqOut :=
  let h := readRequestHeader serviceMap hdr
  match h.err with
  | some e =>
    if ¬ h.keepReading then
      ⟨h.service, h.mtype, h.req, none, false, h.keepReading, some e, false⟩
    else
      ⟨h.service, h.mtype, h.req, none, false, h.keepReading, some e, true⟩
  | none =>
    match bodyErr with
    | some m =>
      ⟨h.service, h.mtype, h.req, none, false, true, some (.bodyDecode m), false⟩
    | none =>
      ⟨h.service, h.mtype, h.req, some bodyVal,
        ¬ (h.mtype.map (fun mt => mt.stream)).getD false, true, none, false⟩

/-- What one iteration of the serving loop does with what readRequest
returned. -/
inductive LoopAct where
  | handleCloseStream (seq : Nat)
  | breakLoop
  | respondInvalid (f : Frame)
  | skipContinue
  | spawnExec (seq : Nat)
deriving DecidableEq, Repr

/-- Lines 599-661 of ServeCodecWithContext, one iteration: errCloseStream
is handled as a cancellation and the loop continues; with keepReading
false the loop breaks; any other error answers with one terminal
invalidRequest response when a header was obtained, and continues either
way; a request without error spawns the executor. -/
def serveStep (o : ReadReqOut) : LoopAct :=
  match o.err with
  | some e =>
    if e = .closeStream then
      .handleCloseStream ((o.req.getD ⟨"", 0⟩).Seq)
    else if ¬ o.keepReading then .breakLoop
    else
      match o.req with
      | some r => .respondInvalid (sendResponse r .invalidRequest (serveErrString e) true)
      | none => .skipContinue
  | none => .spawnExec ((o.req.getD ⟨"", 0⟩).Seq)

/-- The frames one loop action hands to the codec. -/
def stepWrites : LoopAct → List Frame
  | .respondInvalid f => [f]
  | _ => []

/-- Whether the loop action dispatches the request to a service executor. -/
def stepSpawnsExecutor : LoopAct → Bool
  | .spawnExec _ => true
  | _ => false

/-- The CloseStream cancellation goroutine on the live-stream map (stop
channels are identified by numbers): look the seq up, delete the key, and
close the stop channel only when the lookup succeeded. Returns the new map
and the channel closed, if any. -/
def closeStreamCancel (stopChans : List (Nat × Nat)) (seq : Nat) :
    List (Nat × Nat) × Option Nat :=
  let stop := stopChans.lookup seq
  let m := stopChans.filter fun p => p.1 ≠ seq
  match stop with
  | none => (m, none)
  | some st => (m, some st)

/-! ## Context values handed to handlers -/

/-- A reflect.Value as the dispatcher builds context arguments: the value
of a caller-supplied interface (with its type and an identifying number),
or a fresh reflect.New pointer to the zero value of a type. -/
inductive GoValue where
  | ofInterface (t : GoType) (id : Nat)
  | newPtr (t : GoType)
deriving DecidableEq, Repr

/-- The reflect type of such a value: reflect.New t yields a value of
type pointer-to-t. -/
def typeOfValue : GoValue → GoType
  | .ofInterface t _ => t
  | .newPtr t => .ptr t

/-- Lines 570-575 of ServeCodecWithContext: the per-connection context
value is reflect.ValueOf of the supplied context when there is one, and
reflect.New of the configured context type when the context is nil. -/
def serveContextVal (contextType : GoType) : Option GoValue → GoValue
  | some v => v
  | none => .newPtr contextType

/-- Lines 433-437 and 481-485 of call: the argument list handed to the
handler — receiver, then the context value exactly when the method takes
a context, then the argument, then the reply or stream value. -/
def callHandlerArgs (rcvr context argv replyOrStream : GoValue)
    (takesContext : Bool) : List GoValue :=
  if takesContext then [rcvr, context, argv, replyOrStream]
  else [rcvr, argv, replyOrStream]

/-! ## Spec-side definition for the validator claim

The acceptance condition exactly as the claim words it, to be compared
with prepareMethod. -/

/-- The claim: the method is exported; ignoring the receiver it has
exactly two parameters (arg, reply) or exactly three (context, arg,
reply); arg is an exported or built-in type; reply is either the stream
sink type or a pointer to an exported-or-builtin type; and the method has
exactly one result, of type error. -/
def validatorSpecAccepts (m : GoMethod) : Prop :=
  m.pkgPath = "" ∧
  m.outs = [typeOfError] ∧
  ∃ a r : GoType,
    (m.ins.drop 1 = [a, r] ∨ ∃ c : GoType, m.ins.drop 1 = [c, a, r]) ∧
    isExportedOrBuiltinType a = true ∧
    (r = typeOfStream ∨ ∃ t : GoType, r = .ptr t ∧ isExportedOrBuiltinType t = true)

/-! ## Helper lemmas -/

/-- A pointer type is never equal to its element type. -/
theorem GoType.ptr_ne (t : GoType) : GoType.ptr t ≠ t := by
  induction t with
  | ptr s ih =>
    intro h
    exact ih (by injection h)
  | named n p =>
    intro h
    exact GoType.noConfusion h

theorem countDone_append (a b : List CallEvent) :
    countDone (a ++ b) = countDone a + countDone b := by
  induction a with
  | nil => simp [countDone]
  | cons e es ih =>
    cases e <;> simp [countDone, ih] <;> omega

theorem countTerminal_append (seq : Nat) (a b : List CallEvent) :
    countTerminal seq (a ++ b) = countTerminal seq a + countTerminal seq b := by
  induction a with
  | nil => simp [countTerminal]
  | cons e es ih =>
    cases e <;> simp [countTerminal, ih] <;> omega

theorem countDone_mapWrite (l : List Frame) :
    countDone (l.map CallEvent.write) = 0 := by
  induction l with
  | nil => rfl
  | cons f fs ih => simpa [countDone] using ih

theorem countTerminal_mapWrite (seq : Nat) (l : List Frame)
    (h : ∀ f ∈ l, f.last = false) :
    countTerminal seq (l.map CallEvent.write) = 0 := by
  induction l with
  | nil => rfl
  | cons f fs ih =>
    have hf : f.last = false := h f (List.mem_cons_self f fs)
    have hfs : ∀ g ∈ fs, g.last = false := fun g hg => h g (List.mem_cons_of_mem f hg)
    simp [countTerminal, hf, ih hfs]

theorem beforeDone_mapWrite_append (l : List Frame) (tail : List CallEvent) :
    beforeDone (l.map CallEvent.write ++ tail) =
      l.map CallEvent.write ++ beforeDone tail := by
  induction l with
  | nil => rfl
  | cons f fs ih => simp [beforeDone, ih]

/-- Every frame the pumper goroutine writes is non-terminal: the source
calls sendResponse with last = false in the sendChan case and writes
nowhere else. -/
theorem pump_writes_nonterminal (req : Request) (events : List PumpEvent) :
    ∀ f ∈ (runPump req events).writes, f.last = false := by
  have main : ∀ (evs : List PumpEvent) (s : PumpState),
      (∀ f ∈ s.writes, f.last = false) →
      ∀ f ∈ (evs.foldl (pumpStep req) s).writes, f.last = false := by
    intro evs
    induction evs with
    | nil => intro s hs; simpa using hs
    | cons e es ih =>
      intro s hs
      simp only [List.foldl_cons]
      refine ih (pumpStep req s e) ?_
      intro f hf
      cases hst : s.status with
      | exited => rw [pumpStep.eq_def, hst] at hf; exact hs f hf
      | blocked => rw [pumpStep.eq_def, hst] at hf; exact hs f hf
      | running =>
        rw [pumpStep.eq_def, hst] at hf
        cases e with
        | send data writeOutcome consumed =>
          simp only [sendResponseReturn] at hf
          rcases List.mem_append.mp hf with h | h
          · exact hs f h
          · rw [List.mem_singleton.mp h]; rfl
        | funcDone => exact hs f hf
        | eofSig consumed =>
          by_cases hc : consumed = true <;> simp [hc] at hf <;> exact hs f hf
        | stopSig consumed =>
          by_cases hc : consumed = true <;> simp [hc] at hf <;> exact hs f hf
  exact main events pumpInit (by intro f hf; simp [pumpInit] at hf)





/-! ## Claim theorems -/

/-- C8: every response written via sendResponse echoes the service method
and seq of the request header it answers, and when the error string is
non-empty the body actually encoded is the invalidRequest placeholder
instead of the supplied reply value (and the reply value itself when the
error string is empty). -/
theorem sendResponse_echoes_and_replaces (req : Request) (reply : Body)
    (errmsg : String) (last : Bool) :
    (sendResponse req reply errmsg last).header.ServiceMethod = req.ServiceMethod ∧
    (sendResponse req reply errmsg last).header.Seq = req.Seq ∧
    (sendResponse req reply errmsg last).body =
      (if errmsg = "" then reply else Body.invalidRequest) := by
  refine ⟨rfl, rfl, ?_⟩
  by_cases h : errmsg = "" <;> simp [sendResponse, h]

/-- C10: serving without an explicit context value hands every
context-taking handler, as its context argument, the freshly made
reflect.New pointer to the zero value of the configured context type — a
value of pointer-to-context type, never of the context type itself. -/
theorem nilContext_handler_gets_newPtr (ct : GoType)
    (rcvr argv replyv : GoValue) :
    serveContextVal ct none = GoValue.newPtr ct ∧
    callHandlerArgs rcvr (serveContextVal ct none) argv replyv true =
      [rcvr, GoValue.newPtr ct, argv, replyv] ∧
    typeOfValue (serveContextVal ct none) = GoType.ptr ct ∧
    typeOfValue (serveContextVal ct none) ≠ ct := by
  refine ⟨rfl, rfl, rfl, ?_⟩
  exact GoType.ptr_ne ct

/-- C5 counterexample: a recoverable (non-EOF) decode error on the request
header does not let the serving loop continue — at the concrete failure
"bad header" the loop action is breakLoop, no header is retained and no
response frame is written. -/
theorem headerDecodeError_exits_counterexample :
    serveStep (readRequest [] (.decodeErr "bad header") Body.nil none) =
      LoopAct.breakLoop ∧
    (readRequest [] (.decodeErr "bad header") Body.nil none).req = none ∧
    stepWrites (serveStep (readRequest [] (.decodeErr "bad header") Body.nil none)) =
      [] :=
  ⟨rfl, rfl, rfl⟩

/-- C5 amended: a non-EOF decode error while reading a request header
drops the header (req is nil), leaves keepReading false, reads no body,
and makes the serving loop break without writing any response — exactly
like EOF; only errors raised after a successfully decoded header are
recoverable. -/
theorem headerDecodeError_breaks_loop (sm : List (String × service))
    (msg : String) (bodyVal : Body) (bodyErr : Option String) :
    (readRequest sm (.decodeErr msg) bodyVal bodyErr).req = none ∧
    (readRequest sm (.decodeErr msg) bodyVal bodyErr).keepReading = false ∧
    (readRequest sm (.decodeErr msg) bodyVal bodyErr).discardedBody = false ∧
    (readRequest sm (.decodeErr msg) bodyVal bodyErr).err =
      some (.cannotDecode msg) ∧
    serveStep (readRequest sm (.decodeErr msg) bodyVal bodyErr) =
      LoopAct.breakLoop ∧
    stepWrites (serveStep (readRequest sm (.decodeErr msg) bodyVal bodyErr)) =
      [] :=
  ⟨rfl, rfl, rfl, rfl, rfl, rfl⟩

/-- C7: a request whose header names the reserved method CloseStream has
its body read and discarded, produces no response frame, is not routed to
any registered service, and removes the live-stream entry of its seq,
closing the stop channel exactly when such an entry exists and silently
ignoring an absent seq. -/
theorem closeStream_cancels_without_response (sm : List (String × service))
    (seq : Nat) (bodyVal : Body) (bodyErr : Option String)
    (sc : List (Nat × Nat)) :
    (readRequest sm (.ok ⟨"CloseStream", seq⟩) bodyVal bodyErr).err =
      some .closeStream ∧
    (readRequest sm (.ok ⟨"CloseStream", seq⟩) bodyVal bodyErr).discardedBody =
      true ∧
    (readRequest sm (.ok ⟨"CloseStream", seq⟩) bodyVal bodyErr).service = none ∧
    (readRequest sm (.ok ⟨"CloseStream", seq⟩) bodyVal bodyErr).mtype = none ∧
    serveStep (readRequest sm (.ok ⟨"CloseStream", seq⟩) bodyVal bodyErr) =
      LoopAct.handleCloseStream seq ∧
    stepWrites (serveStep (readRequest sm (.ok ⟨"CloseStream", seq⟩) bodyVal bodyErr)) =
      [] ∧
    stepSpawnsExecutor (serveStep (readRequest sm (.ok ⟨"CloseStream", seq⟩) bodyVal bodyErr)) =
      false ∧
    closeStreamCancel sc seq = (sc.filter (fun p => p.1 ≠ seq), sc.lookup seq) := by
  refine ⟨rfl, rfl, rfl, rfl, rfl, rfl, rfl, ?_⟩
  unfold closeStreamCancel
  cases sc.lookup seq <;> rfl

/-- C1 counterexample: on the streaming path the done channel is not
always closed: when the connection-wide eof signal wins the select after
the handler has returned (so nothing ever receives from the error
channel), the pumper blocks forever on its io.EOF push, call never gets
past receiving sendDone, and the concrete schedule produces a trace with
no terminal frame and no close of done. -/
theorem streamCall_done_not_closed_counterexample :
    callStreamTrace ⟨"Svc.Stream", 1⟩ none [PumpEvent.eofSig false] = [] ∧
    ¬ doneOnceWithTerminal 1
      (callStreamTrace ⟨"Svc.Stream", 1⟩ none [PumpEvent.eofSig false]) := by
  refine ⟨rfl, ?_⟩
  intro h
  have h0 : countDone ([] : List CallEvent) = 1 := h.1
  simp [countDone] at h0

/-- C1 amended: the done channel is closed at most once, and whenever it
is closed exactly one terminal frame carrying the seq of the request has
been written before it: unconditionally on the unary path, and on every
streaming schedule on which the pumper goroutine returns (exits its
select loop); a schedule whose pumper blocks forever on an unmatched
error-channel push closes done never, not once. -/
theorem call_done_once_with_terminal (req : Request)
    (handlerErr : Option String) (replyv : Body) (events : List PumpEvent)
    (hex : (runPump req events).status = .exited) :
    doneOnceWithTerminal req.Seq (callUnaryTrace req handlerErr replyv) ∧
    doneOnceWithTerminal req.Seq (callStreamTrace req handlerErr events) ∧
    ∀ schedule : List PumpEvent,
      countDone (callStreamTrace req handlerErr schedule) ≤ 1 := by
  refine ⟨?_, ?_, ?_⟩
  · refine ⟨rfl, ?_, ?_⟩ <;> simp [callUnaryTrace, countTerminal, beforeDone, sendResponse]
  · have htr : callStreamTrace req handlerErr events =
        (runPump req events).writes.map CallEvent.write ++
          [.write (sendResponse req .nil
            (streamTerminalErrmsg handlerErr (runPump req events).streamErr) true),
           .closeDone] := by
      unfold callStreamTrace
      rw [hex]
    have hnl := pump_writes_nonterminal req events
    refine ⟨?_, ?_, ?_⟩
    · rw [htr, countDone_append, countDone_mapWrite]
      simp [countDone]
    · rw [htr, countTerminal_append, countTerminal_mapWrite req.Seq _ hnl]
      simp [countTerminal, sendResponse]
    · rw [htr, beforeDone_mapWrite_append]
      have : beforeDone [CallEvent.write (sendResponse req .nil
          (streamTerminalErrmsg handlerErr (runPump req events).streamErr) true),
          .closeDone] =
          [CallEvent.write (sendResponse req .nil
            (streamTerminalErrmsg handlerErr (runPump req events).streamErr) true)] := rfl
      rw [this, countTerminal_append, countTerminal_mapWrite req.Seq _ hnl]
      simp [countTerminal, sendResponse]
  · intro schedule
    unfold callStreamTrace
    cases (runPump req schedule).status with
    | exited =>
      rw [countDone_append, countDone_mapWrite]
      simp [countDone]
    | running => rw [countDone_mapWrite]; omega
    | blocked => rw [countDone_mapWrite]; omega

/-- C1 witness: the invariant at a concrete unary call and a concrete
streaming schedule on which the pumper returns through funcDone. -/
theorem call_done_once_with_terminal_witness :
    doneOnceWithTerminal 7 (callUnaryTrace ⟨"Arith.Multiply", 7⟩ none (Body.val 56)) ∧
    doneOnceWithTerminal 7
      (callStreamTrace ⟨"Arith.Multiply", 7⟩ none [PumpEvent.funcDone]) :=
  ⟨(call_done_once_with_terminal ⟨"Arith.Multiply", 7⟩ none (Body.val 56)
      [PumpEvent.funcDone] rfl).1,
   (call_done_once_with_terminal ⟨"Arith.Multiply", 7⟩ none (Body.val 56)
      [PumpEvent.funcDone] rfl).2.1⟩

/-- C2: on every streaming schedule on which the handler has returned and
the pumper has exited, the executor writes one terminal frame whose error
field is the error string the handler returned when non-nil, else the
write error held in streamErr when non-nil, else the EOS sentinel. -/
theorem streamTerminal_error_selection (req : Request)
    (handlerErr : Option String) (events : List PumpEvent)
    (hex : (runPump req events).status = .exited) :
    callStreamTrace req handlerErr events =
      (runPump req events).writes.map CallEvent.write ++
        [.write (sendResponse req .nil
          (streamTerminalErrmsg handlerErr (runPump req events).streamErr) true),
         .closeDone] ∧
    (sendResponse req .nil
        (streamTerminalErrmsg handlerErr (runPump req events).streamErr)
        true).header.Error =
      streamTerminalErrmsg handlerErr (runPump req events).streamErr ∧
    (sendResponse req .nil
        (streamTerminalErrmsg handlerErr (runPump req events).streamErr)
        true).last = true ∧
    streamTerminalErrmsg handlerErr (runPump req events).streamErr =
      (match handlerErr with
       | some e => e
       | none =>
         match (runPump req events).streamErr with
         | some w => w
         | none => "EOS") := by
  refine ⟨?_, ?_, rfl, ?_⟩
  · unfold callStreamTrace
    rw [hex]
  · by_cases h : streamTerminalErrmsg handlerErr (runPump req events).streamErr = ""
      <;> simp [sendResponse, h]
  · cases handlerErr with
    | some e => rfl
    | none => cases (runPump req events).streamErr with
      | some w => rfl
      | none => rfl

/-- C2 witness: the terminal error selection at a concrete request, a
handler that returned the error string boom, and the schedule on which
the pumper exits through funcDone. -/
theorem streamTerminal_error_selection_witness :
    callStreamTrace ⟨"A.B", 3⟩ (some "boom") [PumpEvent.funcDone] =
      (runPump ⟨"A.B", 3⟩ [PumpEvent.funcDone]).writes.map CallEvent.write ++
        [.write (sendResponse ⟨"A.B", 3⟩ .nil
          (streamTerminalErrmsg (some "boom")
            (runPump ⟨"A.B", 3⟩ [PumpEvent.funcDone]).streamErr) true),
         .closeDone] ∧
    (sendResponse ⟨"A.B", 3⟩ .nil
        (streamTerminalErrmsg (some "boom")
          (runPump ⟨"A.B", 3⟩ [PumpEvent.funcDone]).streamErr)
        true).header.Error =
      streamTerminalErrmsg (some "boom")
        (runPump ⟨"A.B", 3⟩ [PumpEvent.funcDone]).streamErr ∧
    (sendResponse ⟨"A.B", 3⟩ .nil
        (streamTerminalErrmsg (some "boom")
          (runPump ⟨"A.B", 3⟩ [PumpEvent.funcDone]).streamErr)
        true).last = true ∧
    streamTerminalErrmsg (some "boom")
        (runPump ⟨"A.B", 3⟩ [PumpEvent.funcDone]).streamErr =
      (match some "boom" with
       | some e => e
       | none =>
         match (runPump ⟨"A.B", 3⟩ [PumpEvent.funcDone]).streamErr with
         | some w => w
         | none => "EOS") :=
  streamTerminal_error_selection ⟨"A.B", 3⟩ (some "boom") [PumpEvent.funcDone] rfl

/-- C4: the code drops write errors of non-terminal streaming frames. At a
schedule on which the codec write of a streamed value fails, the pumper
holds streamErr nil (sendResponse returns its never-assigned named return),
pushes nothing into the error channel, keeps looping until funcDone, and
the terminal frame of a handler that returned nil carries EOS rather than
the write error. -/
theorem pumper_ignores_write_error :
    (runPump ⟨"Svc.Stream", 5⟩
      [PumpEvent.send (Body.val 1) (some "write failed") true,
       PumpEvent.funcDone]).streamErr = none ∧
    (runPump ⟨"Svc.Stream", 5⟩
      [PumpEvent.send (Body.val 1) (some "write failed") true,
       PumpEvent.funcDone]).pushes = [] ∧
    (runPump ⟨"Svc.Stream", 5⟩
      [PumpEvent.send (Body.val 1) (some "write failed") true,
       PumpEvent.funcDone]).status = .exited ∧
    callStreamTrace ⟨"Svc.Stream", 5⟩ none
      [PumpEvent.send (Body.val 1) (some "write failed") true,
       PumpEvent.funcDone] =
      [.write (sendResponse ⟨"Svc.Stream", 5⟩ (Body.val 1) "" false),
       .write (sendResponse ⟨"Svc.Stream", 5⟩ Body.nil "EOS" true),
       .closeDone] ∧
    (sendResponse ⟨"Svc.Stream", 5⟩ Body.nil "EOS" true).header.Error = "EOS" := by
  refine ⟨rfl, rfl, rfl, rfl, ?_⟩
  simp [sendResponse]

/-- Stripping one pointer does not change the exported-or-builtin check. -/
theorem isExportedOrBuiltinType_ptr (t : GoType) :
    isExportedOrBuiltinType (.ptr t) = isExportedOrBuiltinType t := rfl

/-- The remaining checks of prepareMethod succeed exactly when the
argument is exported or builtin, the reply is the Stream type or a
pointer to an exported-or-builtin type, and the Out list is exactly the
error type. -/
theorem prepareMethodChecks_isSome (m : GoMethod) (a r : GoType)
    (c : Option GoType) :
    (prepareMethodChecks m a r c).isSome = true ↔
      (isExportedOrBuiltinType a = true ∧
       (r = typeOfStream ∨ ∃ t : GoType, r = .ptr t ∧ isExportedOrBuiltinType t = true) ∧
       m.outs = [typeOfError]) := by
  unfold prepareMethodChecks
  by_cases h1 : isExportedOrBuiltinType a = true
  · rw [if_neg (not_not_intro h1)]
    by_cases h2 : ¬ r = typeOfStream ∧ ¬ kindIsPtr r = true
    · rw [if_pos h2]
      simp only [Option.isSome_none, Bool.false_eq_true, false_iff]
      rintro ⟨-, hr, -⟩
      rcases hr with hr | ⟨t, rfl, -⟩
      · exact h2.1 hr
      · exact h2.2 rfl
    · rw [if_neg h2]
      by_cases h3 : isExportedOrBuiltinType r = true
      · rw [if_neg (not_not_intro h3)]
        by_cases h4 : m.outs.length = 1
        · rw [if_neg (not_not_intro h4)]
          by_cases h5 : m.outs.headD typeOfError = typeOfError
          · rw [if_neg (not_not_intro h5)]
            simp only [Option.isSome_some, true_iff]
            refine ⟨h1, ?_, ?_⟩
            · by_cases hs : r = typeOfStream
              · exact Or.inl hs
              · right
                have hp : kindIsPtr r = true := by
                  rcases not_and_or.mp h2 with hc | hc
                  · exact absurd (not_not.mp hc) hs
                  · exact not_not.mp hc
                cases r with
                | ptr t =>
                  refine ⟨t, rfl, ?_⟩
                  rwa [isExportedOrBuiltinType_ptr] at h3
                | named n p => exact absurd hp (by simp [kindIsPtr])
            · cases houts : m.outs with
              | nil => rw [houts] at h4; simp at h4
              | cons x xs =>
                rw [houts] at h4 h5
                cases xs with
                | nil =>
                  simp only [List.headD_cons] at h5
                  rw [h5]
                | cons y ys => simp at h4
          · rw [if_pos h5]
            simp only [Option.isSome_none, Bool.false_eq_true, false_iff]
            rintro ⟨-, -, ho⟩
            rw [ho] at h5
            exact h5 rfl
        · rw [if_pos h4]
          simp only [Option.isSome_none, Bool.false_eq_true, false_iff]
          rintro ⟨-, -, ho⟩
          rw [ho] at h4
          exact h4 rfl
      · rw [if_pos h3]
        simp only [Option.isSome_none, Bool.false_eq_true, false_iff]
        rintro ⟨-, hr, -⟩
        rcases hr with rfl | ⟨t, rfl, ht⟩
        · exact h3 (by decide)
        · exact h3 (by rw [isExportedOrBuiltinType_ptr]; exact ht)
  · rw [if_pos h1]
    simp only [Option.isSome_none, Bool.false_eq_true, false_iff]
    rintro ⟨ha, -, -⟩
    exact h1 ha

/-- The remaining checks either reject or build exactly the descriptor of
the source, with the stream flag set from the reply-equals-Stream test. -/
theorem prepareMethodChecks_none_or (m : GoMethod) (a r : GoType)
    (c : Option GoType) :
    prepareMethodChecks m a r c = none ∨
    prepareMethodChecks m a r c =
      some ⟨m, a, r, c, decide (r = typeOfStream), 0⟩ := by
  unfold prepareMethodChecks
  split_ifs <;> simp <;> tauto

/-- C3: prepareMethod accepts a method exactly under the conditions the
claim lists — exported method, (arg, reply) or (context, arg, reply)
after the receiver, exported-or-builtin arg, reply either the Stream sink
type or a pointer to an exported-or-builtin type, and exactly one result
of the error type — and the descriptor of an accepted method is marked
streaming exactly when its reply type is the Stream type. -/
theorem prepareMethod_iff_validatorSpec (m : GoMethod) :
    ((prepareMethod m).isSome = true ↔ validatorSpecAccepts m) ∧
    (prepareMethod m).map (fun mt => mt.stream) =
      (prepareMethod m).map (fun mt => decide (mt.ReplyType = typeOfStream)) := by
  obtain ⟨nm, pk, ins, outs⟩ := m
  constructor
  · by_cases hpk : pk = ""
    · subst hpk
      unfold prepareMethod validatorSpecAccepts
      rcases ins with _ | ⟨i0, _ | ⟨i1, _ | ⟨i2, _ | ⟨i3, _ | ⟨i4, rest⟩⟩⟩⟩⟩
      · simp
      · simp
      · simp
      · rw [if_neg (not_not_intro rfl)]
        dsimp only
        rw [prepareMethodChecks_isSome]
        constructor
        · rintro ⟨ha, hr, ho⟩
          exact ⟨rfl, ho, i1, i2, Or.inl rfl, ha, hr⟩
        · rintro ⟨-, ho, a, r, hshape | ⟨c, hc⟩, ha, hr⟩
          · obtain ⟨rfl, rfl⟩ : i1 = a ∧ i2 = r := by simpa using hshape
            exact ⟨ha, hr, ho⟩
          · simp at hc
      · rw [if_neg (not_not_intro rfl)]
        dsimp only
        rw [prepareMethodChecks_isSome]
        constructor
        · rintro ⟨ha, hr, ho⟩
          exact ⟨rfl, ho, i2, i3, Or.inr ⟨i1, rfl⟩, ha, hr⟩
        · rintro ⟨-, ho, a, r, hshape | ⟨c, hc⟩, ha, hr⟩
          · simp at hshape
          · obtain ⟨rfl, rfl, rfl⟩ : i1 = c ∧ i2 = a ∧ i3 = r := by simpa using hc
            exact ⟨ha, hr, ho⟩
      · simp [prepareMethod]
    · unfold prepareMethod validatorSpecAccepts
      rw [if_pos hpk]
      simp only [Option.isSome_none, Bool.false_eq_true, false_iff]
      rintro ⟨hpk2, -, -⟩
      exact hpk hpk2
  · unfold prepareMethod
    by_cases hpk : pk = ""
    · subst hpk
      rw [if_neg (not_not_intro rfl)]
      rcases ins with _ | ⟨i0, _ | ⟨i1, _ | ⟨i2, _ | ⟨i3, _ | ⟨i4, rest⟩⟩⟩⟩⟩ <;> dsimp only
      · rfl
      · rfl
      · rfl
      · rcases prepareMethodChecks_none_or ⟨nm, "", [i0, i1, i2], outs⟩ i1 i2 none
          with h | h <;> rw [h] <;> rfl
      · rcases prepareMethodChecks_none_or ⟨nm, "", [i0, i1, i2, i3], outs⟩ i2 i3 (some i1)
          with h | h <;> rw [h] <;> rfl
      · rfl
    · rw [if_pos hpk]
      rfl

/-- A concrete method the validator accepts: Multiply with an exported
argument struct and a pointer reply. -/
def arithMultiply : GoMethod :=
  ⟨"Multiply", "",
   [.ptr (.named "Arith" "server"), .named "Args" "server",
    .ptr (.named "int" "")],
   [typeOfError]⟩

/-- C6 counterexample: with an empty service name (RegisterName with name
empty) the failure condition of the claim holds, yet register does not
return a non-nil error — it runs into log.Fatal, which ends the process
without returning to the caller. -/
theorem register_emptyName_counterexample :
    (register [] "Arith" [arithMultiply] "" true).1 =
      RegOutcome.fatal "rpc: no service name for type" ∧
    (register [] "Arith" [arithMultiply] "" true).1.isErr = false ∧
    installMethods [arithMultiply] ≠ [] := by
  refine ⟨rfl, rfl, ?_⟩
  decide

/-- C6 amended: register returns a non-nil error exactly when the service
name is non-empty and is a duplicate, or is unexported while RegisterName
was not used, or the receiver has no accepted methods; an empty service
name does not return an error but aborts the process through log.Fatal;
the map is unchanged unless the outcome is nil, in which case the service
is installed under its name. -/
theorem register_error_characterization (sm : List (String × service))
    (rt : String) (ms : List GoMethod) (nm : String) (useName : Bool) :
    ((register sm rt ms nm useName).1.isErr = true ↔
      ((if useName then nm else rt) ≠ "" ∧
        ((isExported (if useName then nm else rt) = false ∧ useName = false) ∨
         (sm.lookup (if useName then nm else rt)).isSome = true ∨
         installMethods ms = []))) ∧
    ((register sm rt ms nm useName).1.isFatal = true ↔
      (if useName then nm else rt) = "") ∧
    ((register sm rt ms nm useName).1 = RegOutcome.ok ↔
      ((if useName then nm else rt) ≠ "" ∧
       (isExported (if useName then nm else rt) = true ∨ useName = true) ∧
       (sm.lookup (if useName then nm else rt)).isSome = false ∧
       installMethods ms ≠ [])) ∧
    (register sm rt ms nm useName).2 =
      (if (register sm rt ms nm useName).1 = RegOutcome.ok
       then sm ++ [((if useName then nm else rt),
         ⟨(if useName then nm else rt), rt, installMethods ms⟩)]
       else sm) := by
  unfold register
  set sname := if useName then nm else rt with hsn
  by_cases h1 : sname = ""
  · rw [if_pos h1]
    simp [RegOutcome.isErr, RegOutcome.isFatal, h1]
  · rw [if_neg h1]
    by_cases h2 : ¬ isExported sname = true ∧ ¬ useName = true
    · rw [if_pos h2]
      obtain ⟨h2a, h2b⟩ := h2
      simp only [RegOutcome.isErr, RegOutcome.isFatal, Bool.not_eq_true] at *
      simp [h1, h2a, h2b]
    · rw [if_neg h2]
      by_cases h3 : (sm.lookup sname).isSome = true
      · rw [if_pos h3]
        simp only [RegOutcome.isErr, RegOutcome.isFatal]
        simp [h1, h3]
      · rw [if_neg h3]
        by_cases h4 : (installMethods ms).length = 0
        · rw [if_pos h4]
          have h4e : installMethods ms = [] := List.length_eq_zero.mp h4
          simp [RegOutcome.isErr, RegOutcome.isFatal, h1, h4e]
        · rw [if_neg h4]
          have h4e : installMethods ms ≠ [] := by
            intro he
            exact h4 (by rw [he]; rfl)
          have h2e : isExported sname = true ∨ useName = true := by
            rcases not_and_or.mp h2 with hc | hc
            · exact Or.inl (not_not.mp hc)
            · exact Or.inr (not_not.mp hc)
          have h3e : (sm.lookup sname).isSome = false := by
            simp only [Bool.not_eq_true] at h3
            exact h3
          refine ⟨?_, ?_, ?_, ?_⟩
          · simp only [RegOutcome.isErr, Bool.false_eq_true, false_iff]
            rintro ⟨-, ⟨ha, hb⟩ | hc | hc⟩
            · rcases h2e with he | he
              · rw [ha] at he
                exact Bool.noConfusion he
              · rw [hb] at he
                exact Bool.noConfusion he
            · rw [hc] at h3e
              exact Bool.noConfusion h3e
            · exact h4e hc
          · simp only [RegOutcome.isFatal, Bool.false_eq_true, false_iff]
            exact h1
          · simp only [true_iff]
            exact ⟨h1, h2e, h3e, h4e⟩
          · rw [if_pos rfl]

/-- A method that takes a context parameter of the given type, otherwise
of an accepted shape. -/
def ctxMethod (c : GoType) : GoMethod :=
  ⟨"Mul", "",
   [.ptr (.named "Arith" "server"), c, .named "Args" "server",
    .ptr (.named "Reply" "server")],
   [typeOfError]⟩

/-- C9 counterexample: a method whose context parameter type is the
plain int type — different from the default configured context type,
the string type of NewServer — is nonetheless accepted by the validator,
which records the mismatched type in the descriptor. -/
theorem contextType_not_validated_counterexample :
    (prepareMethod (ctxMethod (.named "int" ""))).isSome = true ∧
    (prepareMethod (ctxMethod (.named "int" ""))).map
      (fun d => d.ContextType) = some (some (.named "int" "")) ∧
    NewServer.contextType = .named "string" "" ∧
    GoType.named "int" "" ≠ GoType.named "string" "" := by
  refine ⟨rfl, rfl, rfl, ?_⟩
  decide

/-- C9 amended: the validator does not compare the context parameter type
with anything: a context-taking method is accepted or rejected identically
whatever its context type (in particular nothing requires it to match the
configured context type), and the descriptor merely records the declared
context type; SetContextType only replaces the type the server later uses
to build the default context value. -/
theorem contextType_plays_no_part (c c2 : GoType) (t : GoType) :
    (prepareMethod (ctxMethod c)).isSome =
      (prepareMethod (ctxMethod c2)).isSome ∧
    (prepareMethod (ctxMethod c)).map (fun d => d.ContextType) =
      (prepareMethod (ctxMethod c)).map (fun _ => some c) ∧
    (SetContextType NewServer t).contextType = t ∧
    NewServer.contextType = .named "string" "" := by
  refine ⟨?_, ?_, rfl, rfl⟩
  · rfl
  · rcases prepareMethodChecks_none_or (ctxMethod c) (.named "Args" "server")
        (.ptr (.named "Reply" "server")) (some c) with h | h <;>
      unfold ctxMethod at h <;>
      unfold prepareMethod ctxMethod <;>
      rw [if_neg (not_not_intro rfl)] <;>
      dsimp only <;>
      rw [h] <;>
      rfl
